import Mathlib

/-!
Shallow embedding of the Syrowar multi-agent battle engine
(src/agents/team_manager_agent.py, src/game/game.py) together with proofs
about its combat-resolution, turn-orchestration and metrics logic.

Modelling conventions:
* Python dict `my_team` (keys 0..3, insertion order) is a `List Hero`
  whose entries carry their own `idx` field, exactly as the code stores
  `"idx": idx` in every hero record.  Mutation of a hero keyed by `idx`
  is a `List.map` that rewrites the matching entries.
* Python `int` is `Int` (arbitrary precision, may go negative before
  `_check_death` clamps it).
* `random.random() < 0.30` draws (used only by the Reduce passive) are an
  explicit stream `rng : List Bool` of pre-drawn outcomes, consumed
  exactly when the source calls `random.random()`.
* The two LLM oracles (action selection, skill parsing) are inputs:
  `Option ManagerDecision` / `Option ParsedSkill`, `none` being the
  exception / parse-failure path of the source.
* `int(x * 0.30)`, `int(x * 0.70)`, `int(x * 1.4)` on a Python int x:
  the IEEE-double products round to the value nearest 3x/10, 7x/10,
  14x/10 (relative error of the rounded constants is below a half-ulp,
  and the exact rationals have fractional granularity 1/10), so for
  |x| < 2^50 the Python results are exactly the truncated quotients
  trunc(3x/10), trunc(7x/10), trunc(14x/10).  We model them as such.
-/

namespace Syrowar

/-- ASCII lowercasing of one character: models Python str.lower on the
ASCII ability texts used by the game. -/
def lowerChar (c : Char) : Char :=
  if 'A' ≤ c ∧ c ≤ 'Z' then Char.ofNat (c.toNat + 32) else c

/-- ASCII lowercasing of a string (Python str.lower). -/
def lowerStr (s : String) : String := String.mk (s.data.map lowerChar)

/-- Does the first character list start with the second? -/
def charsStart : List Char → List Char → Bool
  | _, [] => true
  | [], _ :: _ => false
  | a :: as, b :: bs => a = b && charsStart as bs

/-- Substring search on character lists. -/
def charsFind (pat : List Char) : List Char → Bool
  | [] => charsStart [] pat
  | c :: cs => charsStart (c :: cs) pat || charsFind pat cs

/-- Python `pat in s` substring test. -/
def strContains (s pat : String) : Bool := charsFind pat.data s.data

/-- Python `int(num / den)` for an exact rational num/den: truncation
toward zero (matches `int(x * 0.3)` etc. per the header note). -/
def truncDiv (a : Int) (b : Nat) : Int :=
  if 0 ≤ a then ((a.toNat / b : Nat) : Int) else -(((-a).toNat / b : Nat) : Int)

/-- Hero life status, the `"status"` field values "alive"/"dead". -/
inductive Status where
  | alive
  | dead
deriving DecidableEq, Repr

/-- One hero record, mirroring the dict built by
`TeamManagerAgent.initialize_team`. -/
structure Hero where
  idx : Nat
  name : String
  health : Int
  attack_power : Int
  status : Status
  revealed : Bool
  subtle_shield : Bool
  accumulated_damage : Int
  buff_threshold : Int
  passive : String
  active : String
deriving DecidableEq, Repr

instance : Inhabited Hero :=
  ⟨{ idx := 0, name := "", health := 0, attack_power := 0, status := .alive,
     revealed := false, subtle_shield := false, accumulated_damage := 0,
     buff_threshold := 200, passive := "", active := "" }⟩

/-- Raw hero data handed over by the team-generation agent; scaled stats
are present exactly when difficulty scaling ran (`initial_health` /
`initial_attack_power` keys). -/
structure HeroSpec where
  name : String
  passive : String
  active : String
  initial_health : Option Int
  initial_attack_power : Option Int
deriving DecidableEq, Repr

/-- `TeamManagerAgent.initialize_team`: ids 0..3 by insertion order,
health defaulting to 400 and attack power to 200 when no scaled stats
are present, alive, unrevealed, no shield, Deflect counters at 0/200. -/
def initialize_team (specs : List HeroSpec) : List Hero :=
  specs.enum.map fun p =>
    { idx := p.1, name := p.2.name,
      health := p.2.initial_health.getD 400,
      attack_power := p.2.initial_attack_power.getD 200,
      status := .alive, revealed := false, subtle_shield := false,
      accumulated_damage := 0, buff_threshold := 200,
      passive := p.2.passive, active := p.2.active }

/-- `TeamManagerAgent._check_death`: clamp non-positive health to 0 and
mark the hero dead. -/
def checkDeath (h : Hero) : Hero :=
  if h.health ≤ 0 then { h with health := 0, status := .dead } else h

/-- `TeamManagerAgent.update_hero_stats`: subtract damage from the hero
with the given id (no-op when the id is unknown) and death-check it.
Used by the game loop to apply recoil (counter) damage. -/
def update_hero_stats (team : List Hero) (target_id : Nat) (damage_amount : Int) :
    List Hero :=
  team.map fun h =>
    if h.idx == target_id then checkDeath { h with health := h.health - damage_amount } else h

/-- `TeamManagerAgent._execute_internal_skill`: Infight damages the
teammate (death-checked) and buffs the actor by 140 attack power, unless
the target id is missing or equals the actor; Subtle shields the target
(possibly the actor itself) and grants it 20 attack power. -/
def execInternalSkill (team : List Hero) (actor_id : Nat) (skill : String)
    (target_id : Option Nat) : List Hero :=
  match target_id with
  | none => team
  | some tid =>
    let s := lowerStr skill
    if strContains s "infight" then
      if tid == actor_id then team
      else
        let team1 := team.map fun h =>
          if h.idx == tid then checkDeath { h with health := h.health - 75 } else h
        team1.map fun h =>
          if h.idx == actor_id then { h with attack_power := h.attack_power + 140 } else h
    else if strContains s "subtle" then
      team.map fun h =>
        if h.idx == tid then
          { h with subtle_shield := true, attack_power := h.attack_power + 20 }
        else h
    else team

/-- Attack payload assembled by `TeamLeadAgent.get_turn_decision` and
consumed by `process_incoming_attack`. -/
structure AttackInfo where
  target_position : Nat
  guessed_identity : String
  skill : String
  attacker_ap : Int
deriving DecidableEq, Repr

/-- Output contract of the skill-parsing oracle
(`TeamManagerAgent._parse_skill_with_llm`, pydantic `SkillAttributes`). -/
structure ParsedSkill where
  damage_amount : Int
  is_aoe : Bool
  targets_lowest : Bool
deriving DecidableEq, Repr

/-- Resolution feedback returned to the attacker by
`process_incoming_attack`. -/
structure Feedback where
  guess_correct : Bool
  actual_identity : Option String
  counter_damage : Int
  target_health : Int
  target_status : Status
  all_dead_positions : List Nat
deriving DecidableEq, Repr

/-- Global-breach block of `process_incoming_attack` (first correct
guess): mark the target revealed, then subtract 50 health from every
currently-alive hero, death-checking each. -/
def breachPhase (team : List Hero) (tpos : Nat) : List Hero :=
  ((team.map fun h => if h.idx == tpos then { h with revealed := true } else h).map
    fun h => if h.status == .alive then checkDeath { h with health := h.health - 50 } else h)

/-- Python `min(alive_mates, key=lambda x: x["health"])`: the first
alive hero of minimal health in iteration order. -/
def lowestAlive (team : List Hero) : Option Hero :=
  match team.filter (fun h => h.status == .alive) with
  | [] => none
  | h :: hs => some (hs.foldl (fun best m => if m.health < best.health then m else best) h)

/-- Target-set determination of `process_incoming_attack`: AOE hits all
alive heroes; `targets_lowest` redirects to the lowest-health alive hero
and boosts the damage to `int(attacker_ap * 1.4)` when that hero is
below 160 health and the boost exceeds the parsed amount; otherwise the
addressed hero alone, and only if still alive.  Returns the target id
list and the (possibly boosted) raw damage. -/
def determineTargets (team : List Hero) (tpos : Nat) (attacker_ap : Int)
    (ps : ParsedSkill) : List Nat × Int :=
  if ps.is_aoe then
    (((team.filter fun h => h.status == .alive).map fun h => h.idx), ps.damage_amount)
  else if ps.targets_lowest then
    match lowestAlive team with
    | none => ([], ps.damage_amount)
    | some low =>
      let raw :=
        if low.health < 160 then
          let newDamage := truncDiv (14 * attacker_ap) 10
          if ps.damage_amount < newDamage then newDamage else ps.damage_amount
        else ps.damage_amount
      ([low.idx], raw)
  else
    match team.find? (fun h => h.idx == tpos) with
    | some h => if h.status == .alive then ([tpos], ps.damage_amount) else ([], ps.damage_amount)
    | none => ([], ps.damage_amount)

/-- Deflect block (lines 410-424 of the manager): the hero retains
`int(0.30 * d)` as its own damage-to-take; `int(0.70 * d)` is divided
evenly (floor) among the other currently-alive heroes, each share being
subtracted and death-checked immediately.  Called with `0 < d`. -/
def deflectApply (team : List Hero) (heroIdx : Nat) (d : Int) : Int × List Hero :=
  let selfDamage : Int := ((3 * d.toNat) / 10 : Nat)
  let shareTotal : Nat := (7 * d.toNat) / 10
  let mates := team.filter fun m => m.status == .alive && m.idx != heroIdx
  if mates.isEmpty then (selfDamage, team)
  else
    let damagePerMate : Nat := shareTotal / mates.length
    (selfDamage,
      team.map fun m =>
        if m.status == .alive && m.idx != heroIdx then
          checkDeath { m with health := m.health - damagePerMate }
        else m)

/-- Subtle-shield block: a shielded hero taking positive damage has it
cut to `int(0.30 * d)` and the shield consumed. -/
def shieldStage (h : Hero) (d : Int) : Hero × Int :=
  if h.subtle_shield = true ∧ 0 < d then
    ({ h with subtle_shield := false }, truncDiv (3 * d) 10)
  else (h, d)

/-- Damage application: positive remaining damage is subtracted from
health (clamping happens later in `checkDeath`). -/
def applyStage (h : Hero) (d : Int) : Hero :=
  if 0 < d then { h with health := h.health - d } else h

/-- Deflect accumulation bookkeeping ("Redguard tracker"): add the
damage actually taken; on crossing the threshold gain 40 attack power
and raise the threshold by 200. -/
def deflectTrack (h : Hero) (d : Int) : Hero :=
  let h1 := { h with accumulated_damage := h.accumulated_damage + d }
  if h1.buff_threshold ≤ h1.accumulated_damage then
    { h1 with attack_power := h1.attack_power + 40, buff_threshold := h1.buff_threshold + 200 }
  else h1

/-- Counter passive: +30 recoil when some other currently-alive hero is
below 120 health (independent of damage taken). -/
def counterStage (team : List Hero) (heroIdx : Nat) (counter : Int) : Int :=
  if team.any (fun m => m.status == .alive && m.idx != heroIdx && decide (m.health < 120)) then
    counter + 30
  else counter

/-- Explode passive block (entered when the hero has the passive and
took positive damage): +40 recoil if the hero still has positive
health; +15 attack power if its health is in (0, 120). -/
def explodeStage (h : Hero) (d : Int) (counter : Int) : Hero × Int :=
  let counter1 := if 0 < d ∧ 0 < h.health then counter + 40 else counter
  let h1 := if h.health < 120 ∧ 0 < h.health then
      { h with attack_power := h.attack_power + 15 }
    else h
  (h1, counter1)

/-- Heal passive: +20 health when the hero survived and took positive
damage. -/
def healStage (h : Hero) (d : Int) : Hero :=
  if 0 < h.health ∧ 0 < d then { h with health := h.health + 20 } else h

/-- State threaded through the per-target loop of
`process_incoming_attack`. -/
structure PipeState where
  team : List Hero
  counter_damage : Int
  rng : List Bool
deriving DecidableEq, Repr

/-- Reduce/Deflect head of the per-target pipeline: a successful dodge
zeroes the damage; otherwise a Deflect hero facing positive damage runs
the redistribution.  Returns remaining damage-to-take and the roster
(possibly with redistributed damage applied). -/
def preDamage (pd : String) (dodge : Bool) (team : List Hero) (heroIdx : Nat)
    (raw : Int) : Int × List Hero :=
  if dodge = true then ((0 : Int), team)
  else if strContains pd "deflect" = true ∧ 0 < raw then deflectApply team heroIdx raw
  else (raw, team)

/-- Tail of the per-target pipeline acting on the processed hero after
the shield stage: damage application, Deflect bookkeeping, the Explode
attack-power buff, Heal, and the final death check, in source order.
(The Explode stage's hero component does not depend on the running
counter total, so it is invoked here with counter 0.) -/
def hitHero (pd : String) (hero1 : Hero) (d2 : Int) : Hero :=
  let hero2 := applyStage hero1 d2
  let hero3 := if strContains pd "deflect" = true then deflectTrack hero2 d2 else hero2
  let hero4 := if strContains pd "explode" = true ∧ 0 < d2 then (explodeStage hero3 d2 0).1
    else hero3
  let hero5 := if strContains pd "heal:" = true then healStage hero4 d2 else hero4
  checkDeath hero5

/-- Counter-damage accumulation of one per-target iteration: the
Counter passive check (against the current roster) followed by the
Explode recoil.  The Explode block in the source reads the processed
hero's health after damage application (the Deflect bookkeeping in
between does not change health), so it receives the post-`applyStage`
hero here. -/
def hitCounter (pd : String) (team1 : List Hero) (heroIdx : Nat) (hero1 : Hero)
    (d2 : Int) (counter0 : Int) : Int :=
  let hero2 := applyStage hero1 d2
  let counter1 := if strContains pd "counter" = true then counterStage team1 heroIdx counter0
    else counter0
  if strContains pd "explode" = true ∧ 0 < d2 then (explodeStage hero2 d2 counter1).2
  else counter1

/-- One iteration of the per-target loop: the Reduce dodge roll, the
Deflect redistribution, the shield, damage application, Deflect
bookkeeping, Counter/Explode recoil, Heal and the final death check, in
source order.  The processed hero is written back at the end; no other
step reads its own roster entry in between (Deflect and Counter both
exclude `heroIdx`). -/
def processTarget (raw : Int) (st : PipeState) (tidx : Nat) : PipeState :=
  match st.team.find? (fun h => h.idx == tidx) with
  | none => st
  | some hero0 =>
    let pd := lowerStr hero0.passive
    let hasReduce := strContains pd "reduce"
    let dodge := hasReduce && st.rng.headD false
    let rng1 := if hasReduce then st.rng.tail else st.rng
    let step1 := preDamage pd dodge st.team hero0.idx raw
    let step2 := shieldStage hero0 step1.1
    let hero6 := hitHero pd step2.1 step2.2
    { team := step1.2.map fun m => if m.idx == hero0.idx then hero6 else m,
      counter_damage := hitCounter pd step1.2 hero0.idx step2.1 step2.2 st.counter_damage,
      rng := rng1 }

/-- `TeamManagerAgent.process_incoming_attack`.  Returns the feedback
(`none` on an invalid target position or a failed skill parse) together
with the defending roster after all mutations; on a parse failure the
global-breach mutation has already happened and persists. -/
def process_incoming_attack (team : List Hero) (atk : AttackInfo)
    (parsed : Option ParsedSkill) (rng : List Bool) : Option Feedback × List Hero :=
  match team.find? (fun h => h.idx == atk.target_position) with
  | none => (none, team)
  | some target0 =>
    let guessCorrect := lowerStr atk.guessed_identity == lowerStr target0.name
    let team1 :=
      if guessCorrect = true ∧ target0.revealed = false then
        breachPhase team atk.target_position
      else team
    match parsed with
    | none => (none, team1)
    | some ps =>
      let tr := determineTargets team1 atk.target_position atk.attacker_ap ps
      let finalState := tr.1.foldl (processTarget tr.2)
        { team := team1, counter_damage := 0, rng := rng }
      let finalTeam := finalState.team
      let targetFinal := (finalTeam.find? (fun h => h.idx == atk.target_position)).getD target0
      (some {
          guess_correct := guessCorrect,
          actual_identity := if guessCorrect then some target0.name else none,
          counter_damage := finalState.counter_damage,
          target_health := targetFinal.health,
          target_status := targetFinal.status,
          all_dead_positions := (finalTeam.filter fun h => h.status == .dead).map fun h => h.idx },
        finalTeam)

/-- Decision Oracle #1 response (manager LLM), after JSON parsing. -/
structure ManagerDecision where
  selected_hero_id : Option Nat
  hero_name : String
  selected_skill : String
  target_type : String
  teammate_target_id : Option Nat
deriving DecidableEq, Repr

/-- Outcome of `TeamManagerAgent.select_hero_for_turn`: DEFEAT signal,
`None` (validation failure), ERROR status (exception), INTERNAL ACTION
or ACTIVE. -/
inductive SelectOutcome where
  | defeat
  | failed
  | errorStatus
  | internalAction
  | activeAttack
deriving DecidableEq, Repr

/-- `TeamManagerAgent.select_hero_for_turn`.  With no alive hero it
signals DEFEAT before consulting the oracle.  An absent/unknown hero id
or an internal skill aimed at the enemy yields `None`.  A teammate
target runs the internal-skill executor (an unknown teammate id raises
KeyError before any mutation, caught as the ERROR status).  The oracle
argument is `none` on an LLM exception. -/
def select_hero_for_turn (team : List Hero) (oracle : Option ManagerDecision) :
    SelectOutcome × List Hero :=
  if (team.filter fun h => h.status == .alive).isEmpty then (.defeat, team)
  else
    match oracle with
    | none => (.errorStatus, team)
    | some d =>
      match d.selected_hero_id with
      | none => (.failed, team)
      | some hid =>
        if (team.find? fun h => h.idx == hid).isNone then (.failed, team)
        else
          let skill := lowerStr d.selected_skill
          if d.target_type = "enemy" ∧
              (strContains skill "infight" = true ∨ strContains skill "subtle" = true) then
            (.failed, team)
          else if d.target_type = "teammate" then
            match d.teammate_target_id with
            | none => (.internalAction, team)
            | some tid =>
              if (team.find? fun h => h.idx == tid).isNone then (.errorStatus, team)
              else (.internalAction, execInternalSkill team hid d.selected_skill (some tid))
          else (.activeAttack, team)

/-- Decision Oracle #2 response (lead LLM), after JSON parsing. -/
structure LeadDecision where
  target_position : Nat
  guessed_identity : String
deriving DecidableEq, Repr

/-- Result of one `perform_turn` call in src/game/game.py: "GAME OVER",
"CONTINUE", or `None` (turn aborted, episode recorded as failed). -/
inductive TurnResult where
  | gameOver
  | continueGame
  | turnFailed
deriving DecidableEq, Repr

/-- `perform_turn` (src/game/game.py): manager selects (DEFEAT becomes
the lead's SURRENDER, hence GAME OVER for the opponent; ERROR/None abort
the turn; INTERNAL ACTION ends the turn); otherwise the lead oracle
produces the target/guess, the defender resolves the attack, and
positive counter damage recoils onto the acting hero.  Returns the
result with both rosters (active first). -/
def perform_turn (activeTeam passiveTeam : List Hero)
    (managerOracle : Option ManagerDecision) (leadOracle : Option LeadDecision)
    (parseOracle : Option ParsedSkill) (rng : List Bool) :
    TurnResult × List Hero × List Hero :=
  let sel := select_hero_for_turn activeTeam managerOracle
  let activeTeam1 := sel.2
  match sel.1 with
  | .failed => (.turnFailed, activeTeam1, passiveTeam)
  | .errorStatus => (.turnFailed, activeTeam1, passiveTeam)
  | .internalAction => (.continueGame, activeTeam1, passiveTeam)
  | .defeat => (.gameOver, activeTeam1, passiveTeam)
  | .activeAttack =>
    match managerOracle with
    | none => (.turnFailed, activeTeam1, passiveTeam)
    | some d =>
      match d.selected_hero_id with
      | none => (.turnFailed, activeTeam1, passiveTeam)
      | some hid =>
        match activeTeam1.find? (fun h => h.idx == hid) with
        | none => (.turnFailed, activeTeam1, passiveTeam)
        | some actingHero =>
          match leadOracle with
          | none => (.turnFailed, activeTeam1, passiveTeam)
          | some ld =>
            let payload : AttackInfo :=
              { target_position := ld.target_position,
                guessed_identity := ld.guessed_identity,
                skill := d.selected_skill,
                attacker_ap := actingHero.attack_power }
            let res := process_incoming_attack passiveTeam payload parseOracle rng
            match res.1 with
            | none => (.turnFailed, activeTeam1, res.2)
            | some fb =>
              let activeTeam2 :=
                if 0 < fb.counter_damage then update_hero_stats activeTeam1 hid fb.counter_damage
                else activeTeam1
              (.continueGame, activeTeam2, res.2)

/-- Outcome of one round of the battle loop in `run_game_loop`. -/
inductive RoundOutcome where
  | winner (w : String)
  | episodeFailed
  | nextRound (teamA teamB : List Hero)
deriving DecidableEq, Repr

/-- One iteration of the `while game_running` loop of `run_game_loop`:
Team A's turn (GAME OVER there crowns Team B), then Team B's turn (GAME
OVER there crowns Team A); a `None` turn aborts the episode. -/
def runRound (teamA teamB : List Hero)
    (mA : Option ManagerDecision) (lA : Option LeadDecision) (pA : Option ParsedSkill)
    (rngA : List Bool)
    (mB : Option ManagerDecision) (lB : Option LeadDecision) (pB : Option ParsedSkill)
    (rngB : List Bool) : RoundOutcome :=
  let turnA := perform_turn teamA teamB mA lA pA rngA
  match turnA.1 with
  | .turnFailed => .episodeFailed
  | .gameOver => .winner "Team B"
  | .continueGame =>
    let turnB := perform_turn turnA.2.2 turnA.2.1 mB lB pB rngB
    match turnB.1 with
    | .turnFailed => .episodeFailed
    | .gameOver => .winner "Team A"
    | .continueGame => .nextRound turnB.2.2 turnB.2.1

/-- `get_total_team_health`. -/
def get_total_team_health (team : List Hero) : Int :=
  (team.map fun h => h.health).sum

/-- `get_alive_count`. -/
def get_alive_count (team : List Hero) : Nat :=
  (team.filter fun h => h.status == .alive).length

/-- `apply_difficulty_scaling`, per hero: `initial_health =
int(400 * sqrt(difficulty))`.  The parameter `s` is the value
`math.sqrt(difficulty_ratio)` computed by the source (one float, fed to
both this function and `start_hp_b`); `int()` on the non-negative
product is the floor. -/
def scaledHealth (s : ℚ) : Int := ⌊400 * s⌋

/-- `apply_difficulty_scaling`, per hero: `initial_attack_power =
int(200 * sqrt(difficulty))`. -/
def scaledAttackPower (s : ℚ) : Int := ⌊200 * s⌋

/-- `apply_difficulty_scaling` over the generated team data (a no-op is
applied upstream for ratio 1.0; here we model the scaling call itself,
which overwrites both scaled stats on every hero). -/
def apply_difficulty_scaling (specs : List HeroSpec) (s : ℚ) : List HeroSpec :=
  specs.map fun sp =>
    { sp with initial_health := some (scaledHealth s),
              initial_attack_power := some (scaledAttackPower s) }

/-- Team B's recorded starting health in `run_game_loop`:
`int(1600 * math.sqrt(difficulty))` when difficulty differs from 1.0,
else 1600. -/
def start_hp_b (difficultyIsOne : Bool) (s : ℚ) : Int :=
  if difficultyIsOne then 1600 else ⌊1600 * s⌋

/-- `damage_dealt_by_a = start_hp_b - get_total_team_health(manager_b)`. -/
def damage_dealt_by_a (difficultyIsOne : Bool) (s : ℚ) (finalTeamB : List Hero) : Int :=
  start_hp_b difficultyIsOne s - get_total_team_health finalTeamB

/-- `damage_dealt_by_b = 1600 - get_total_team_health(manager_a)`. -/
def damage_dealt_by_b (finalTeamA : List Hero) : Int :=
  1600 - get_total_team_health finalTeamA

/-- One episode record appended to `results` by
`run_multi_agent_battle_simulation`. -/
structure EpisodeResult where
  winner : String
  damage_dealt_by_a : Int
  damage_dealt_by_b : Int
deriving DecidableEq, Repr

/-- The dynamic key lookup of `calculate_metrics`
(`damage_dealt_by_ + label.split(" ")[1].lower()`): "Team A" selects
`damage_dealt_by_a`, "Team B" selects `damage_dealt_by_b`. -/
def damageOf (r : EpisodeResult) (team_label : String) : Int :=
  if team_label = "Team A" then r.damage_dealt_by_a else r.damage_dealt_by_b

/-- `calculate_metrics`: `win_rate = wins / total_games` (float
division, modelled exactly over ℚ). -/
def win_rate (results : List EpisodeResult) (team_label : String) : ℚ :=
  ((results.filter fun r => r.winner == team_label).length : ℚ) / (results.length : ℚ)

/-- `calculate_metrics`: `damage_rate = (total_damage / total_games) / 1600.0`. -/
def damage_rate (results : List EpisodeResult) (team_label : String) : ℚ :=
  (((results.map fun r => damageOf r team_label).sum : ℚ) / (results.length : ℚ)) / 1600

/-- `calculate_metrics`: `reward = 0.7 * win_rate + 0.3 * damage_rate`. -/
def reward (results : List EpisodeResult) (team_label : String) : ℚ :=
  (7 / 10) * win_rate results team_label + (3 / 10) * damage_rate results team_label

/-! ## The health/status invariant (claim C1) -/

/-- The spec's hero health invariant: health is non-negative and is
zero exactly for dead heroes. -/
def heroInv (h : Hero) : Prop :=
  0 ≤ h.health ∧ (h.health = 0 ↔ h.status = .dead)

/-- The invariant over a whole roster. -/
def teamInv (team : List Hero) : Prop := ∀ h ∈ team, heroInv h

instance (h : Hero) : Decidable (heroInv h) := by
  unfold heroInv; infer_instance

instance (team : List Hero) : Decidable (teamInv team) := by
  unfold teamInv; infer_instance

lemma heroInv_checkDeath (h : Hero) (hc : h.status = .alive ∨ h.health ≤ 0) :
    heroInv (checkDeath h) := by
  unfold checkDeath heroInv
  split
  · simp
  · rename_i hh
    rcases hc with hc | hc
    · simp [hc]
      omega
    · exact absurd hc hh

lemma heroInv_damage (h : Hero) (hinv : heroInv h) (d : Int) (hd : 0 ≤ d) :
    heroInv (checkDeath { h with health := h.health - d }) := by
  apply heroInv_checkDeath
  cases hs : h.status with
  | alive => exact Or.inl rfl
  | dead =>
    right
    have h0 : h.health = 0 := hinv.2.mpr hs
    simp [h0]
    omega

lemma teamInv_map {team : List Hero} {f : Hero → Hero}
    (hf : ∀ h, heroInv h → heroInv (f h)) (ht : teamInv team) : teamInv (team.map f) := by
  intro h hm
  rcases List.mem_map.mp hm with ⟨a, ha, rfl⟩
  exact hf a (ht a ha)

lemma teamInv_breachPhase {team : List Hero} (ht : teamInv team) (tpos : Nat) :
    teamInv (breachPhase team tpos) := by
  unfold breachPhase
  apply teamInv_map _ (teamInv_map _ ht)
  · intro h hh
    split
    · exact heroInv_damage h hh 50 (by norm_num)
    · exact hh
  · intro h hh
    split
    · exact hh
    · exact hh

lemma teamInv_update (team : List Hero) (tid : Nat) (d : Int) (hd : 0 ≤ d)
    (ht : teamInv team) : teamInv (update_hero_stats team tid d) := by
  unfold update_hero_stats
  apply teamInv_map _ ht
  intro h hh
  split
  · exact heroInv_damage h hh d hd
  · exact hh

lemma teamInv_internal (team : List Hero) (aid : Nat) (skill : String) (tid : Option Nat)
    (ht : teamInv team) : teamInv (execInternalSkill team aid skill tid) := by
  unfold execInternalSkill
  cases tid with
  | none => exact ht
  | some t =>
    dsimp only
    split
    · split
      · exact ht
      · apply teamInv_map _ (teamInv_map _ ht)
        · intro h hh
          split
          · exact hh
          · exact hh
        · intro h hh
          split
          · exact heroInv_damage h hh 75 (by norm_num)
          · exact hh
    · split
      · apply teamInv_map _ ht
        intro h hh
        split
        · exact hh
        · exact hh
      · exact ht

lemma teamInv_deflectApply (team : List Hero) (hidx : Nat) (d : Int)
    (ht : teamInv team) : teamInv (deflectApply team hidx d).2 := by
  unfold deflectApply
  dsimp only
  split
  · exact ht
  · apply teamInv_map _ ht
    intro h hh
    split
    · exact heroInv_damage h hh _ (Int.natCast_nonneg _)
    · exact hh

lemma teamInv_preDamage (pd : String) (dodge : Bool) (team : List Hero) (hidx : Nat)
    (raw : Int) (ht : teamInv team) : teamInv (preDamage pd dodge team hidx raw).2 := by
  unfold preDamage
  split
  · exact ht
  · split
    · exact teamInv_deflectApply team hidx raw ht
    · exact ht

lemma shieldStage_status (h : Hero) (d : Int) : (shieldStage h d).1.status = h.status := by
  unfold shieldStage; split <;> rfl

lemma shieldStage_health (h : Hero) (d : Int) : (shieldStage h d).1.health = h.health := by
  unfold shieldStage; split <;> rfl

lemma heroInv_shieldStage (h : Hero) (d : Int) (hh : heroInv h) :
    heroInv (shieldStage h d).1 := by
  unfold heroInv at hh ⊢
  rw [shieldStage_status, shieldStage_health]
  exact hh

lemma applyStage_status (h : Hero) (d : Int) : (applyStage h d).status = h.status := by
  unfold applyStage; split <;> rfl

lemma applyStage_health_le (h : Hero) (d : Int) (hh : h.health ≤ 0) :
    (applyStage h d).health ≤ 0 := by
  unfold applyStage
  split
  · rename_i hd
    simp
    omega
  · exact hh

lemma deflectTrack_status (h : Hero) (d : Int) : (deflectTrack h d).status = h.status := by
  unfold deflectTrack
  dsimp only
  split <;> rfl

lemma deflectTrack_health (h : Hero) (d : Int) : (deflectTrack h d).health = h.health := by
  unfold deflectTrack
  dsimp only
  split <;> rfl

lemma explodeStage_status (h : Hero) (d c : Int) : (explodeStage h d c).1.status = h.status := by
  unfold explodeStage
  dsimp only
  split <;> rfl

lemma explodeStage_health (h : Hero) (d c : Int) : (explodeStage h d c).1.health = h.health := by
  unfold explodeStage
  dsimp only
  split <;> rfl

lemma healStage_status (h : Hero) (d : Int) : (healStage h d).status = h.status := by
  unfold healStage; split <;> rfl

lemma healStage_health_le (h : Hero) (d : Int) (hh : h.health ≤ 0) :
    (healStage h d).health ≤ 0 := by
  unfold healStage
  split
  · rename_i hc
    omega
  · exact hh

/-- A hero that went through the post-shield pipeline tail satisfies
the invariant again after the final death check. -/
lemma heroInv_hitHero (pd : String) (h1 : Hero) (d2 : Int) (hh : heroInv h1) :
    heroInv (hitHero pd h1 d2) := by
  unfold hitHero
  dsimp only
  set hero2 := applyStage h1 d2 with hdef2
  set hero3 := if strContains pd "deflect" = true then deflectTrack hero2 d2 else hero2
    with hdef3
  set hero4 := if strContains pd "explode" = true ∧ 0 < d2 then (explodeStage hero3 d2 0).1
    else hero3 with hdef4
  set hero5 := if strContains pd "heal:" = true then healStage hero4 d2 else hero4 with hdef5
  have hstat3 : hero3.status = hero2.status := by
    rw [hdef3]; split
    · exact deflectTrack_status _ _
    · rfl
  have hstat4 : hero4.status = hero3.status := by
    rw [hdef4]; split
    · exact explodeStage_status _ _ _
    · rfl
  have hstat5 : hero5.status = hero4.status := by
    rw [hdef5]; split
    · exact healStage_status _ _
    · rfl
  have hhl3 : hero3.health = hero2.health := by
    rw [hdef3]; split
    · exact deflectTrack_health _ _
    · rfl
  have hhl4 : hero4.health = hero3.health := by
    rw [hdef4]; split
    · exact explodeStage_health _ _ _
    · rfl
  have hhl5 : hero4.health ≤ 0 → hero5.health ≤ 0 := by
    intro hle
    rw [hdef5]; split
    · exact healStage_health_le _ _ hle
    · exact hle
  apply heroInv_checkDeath
  cases hs : h1.status with
  | alive =>
    left
    rw [hstat5, hstat4, hstat3, hdef2, applyStage_status]
    exact hs
  | dead =>
    right
    have h0 : h1.health = 0 := hh.2.mpr hs
    apply hhl5
    rw [hhl4, hhl3, hdef2]
    exact applyStage_health_le _ _ (le_of_eq h0)

lemma teamInv_processTarget (raw : Int) (st : PipeState) (tidx : Nat)
    (ht : teamInv st.team) : teamInv (processTarget raw st tidx).team := by
  unfold processTarget
  cases hfind : st.team.find? (fun h => h.idx == tidx) with
  | none => exact ht
  | some hero0 =>
    have hh0 : heroInv hero0 := ht hero0 (List.mem_of_find?_eq_some hfind)
    dsimp only
    apply teamInv_map _ (teamInv_preDamage _ _ _ _ _ ht)
    intro m hm
    split
    · exact heroInv_hitHero _ _ _ (heroInv_shieldStage _ _ hh0)
    · exact hm

lemma teamInv_foldTargets (raw : Int) (targets : List Nat) (st : PipeState)
    (ht : teamInv st.team) : teamInv (targets.foldl (processTarget raw) st).team := by
  induction targets generalizing st with
  | nil => exact ht
  | cons t ts ih => exact ih _ (teamInv_processTarget raw st t ht)

lemma teamInv_process (team : List Hero) (atk : AttackInfo) (parsed : Option ParsedSkill)
    (rng : List Bool) (ht : teamInv team) :
    teamInv (process_incoming_attack team atk parsed rng).2 := by
  unfold process_incoming_attack
  cases hfind : team.find? (fun h => h.idx == atk.target_position) with
  | none => exact ht
  | some target0 =>
    dsimp only
    have hteam1 : teamInv (if (lowerStr atk.guessed_identity == lowerStr target0.name) = true ∧
        target0.revealed = false then breachPhase team atk.target_position else team) := by
      split
      · exact teamInv_breachPhase ht _
      · exact ht
    cases parsed with
    | none => exact hteam1
    | some ps => exact teamInv_foldTargets _ _ _ hteam1

/-- C1. Health invariant: every engine operation that mutates hero
state — team initialization (with the positive starting health the
engine supplies: the 400 default or positive scaled stats), the internal
skill executor, incoming-attack resolution, and recoil application via
update_hero_stats with the non-negative counter damage — leaves every
hero of the roster with health >= 0, and with health == 0 exactly when
its status is dead. -/
theorem health_invariant_preserved :
    (∀ specs : List HeroSpec, (∀ sp ∈ specs, 0 < sp.initial_health.getD 400) →
      teamInv (initialize_team specs)) ∧
    (∀ (team : List Hero) (tid : Nat) (dmg : Int), 0 ≤ dmg → teamInv team →
      teamInv (update_hero_stats team tid dmg)) ∧
    (∀ (team : List Hero) (aid : Nat) (skill : String) (tid : Option Nat), teamInv team →
      teamInv (execInternalSkill team aid skill tid)) ∧
    (∀ (team : List Hero) (atk : AttackInfo) (parsed : Option ParsedSkill) (rng : List Bool),
      teamInv team → teamInv (process_incoming_attack team atk parsed rng).2) := by
  refine ⟨?_, ?_, ?_, ?_⟩
  · intro specs hpos h hm
    unfold initialize_team at hm
    rcases List.mem_map.mp hm with ⟨p, hp, rfl⟩
    have hsp : p.2 ∈ specs := by
      have := List.enum_map_snd specs
      exact this ▸ List.mem_map_of_mem Prod.snd hp
    have hhp := hpos p.2 hsp
    refine ⟨le_of_lt hhp, ?_⟩
    show p.2.initial_health.getD 400 = 0 ↔ Status.alive = Status.dead
    constructor
    · intro h0
      omega
    · intro hd
      cases hd
  · intro team tid dmg hd ht
    exact teamInv_update team tid dmg hd ht
  · intro team aid skill tid ht
    exact teamInv_internal team aid skill tid ht
  · intro team atk parsed rng ht
    exact teamInv_process team atk parsed rng ht

/-- A concrete generated team exercising all five passives. -/
def specsW : List HeroSpec :=
  [⟨"Argonian", "Counter: strike back", "Crit: 120 damage", none, none⟩,
   ⟨"Nord", "Reduce: 30 percent dodge", "AOE: hit all", none, none⟩,
   ⟨"Khajit", "Heal: recover 20", "Crit: 120 damage", none, none⟩,
   ⟨"Breton", "Deflect: share damage", "Subtle: shield", none, none⟩]

/-- The concrete initialized roster for `specsW`. -/
def teamW : List Hero := initialize_team specsW

/-- Witness for C1: the invariant theorem applied to a concrete roster,
a concrete lethal recoil, a concrete Infight and a concrete AOE attack
that triggers Reduce, Deflect, Counter and Heal. -/
theorem health_invariant_preserved_witness :
    teamInv (initialize_team specsW) ∧
    teamInv (update_hero_stats teamW 0 450) ∧
    teamInv (execInternalSkill teamW 0 "Infight: deal 75 damage" (some 1)) ∧
    teamInv (process_incoming_attack teamW ⟨3, "breton", "Basic Attack", 200⟩
      (some ⟨500, true, false⟩) [true]).2 :=
  ⟨health_invariant_preserved.1 specsW (by decide),
   health_invariant_preserved.2.1 teamW 0 450 (by norm_num) (by decide),
   health_invariant_preserved.2.2.1 teamW 0 "Infight: deal 75 damage" (some 1) (by decide),
   health_invariant_preserved.2.2.2 teamW ⟨3, "breton", "Basic Attack", 200⟩
     (some ⟨500, true, false⟩) [true] (by decide)⟩

/-! ## Deflect conservation (claim C3) -/

/-- C3. For a hit on a Deflect hero with remaining damage d > 0 and at
least one other currently-alive teammate: the hero's own damage-to-take
becomes the retained 30 percent int(0.3*d); every other alive teammate
takes the even integer share of int(0.7*d) and is death-checked; and
retained-plus-distributed equals d up to the two rounding drops, namely
the unit lost by the int() 30/70 split plus the remainder of the even
division — so the loss is between 0 and the number of teammates, never
duplicated. -/
theorem deflect_conservation (team : List Hero) (hidx : Nat) (d : Int) (hd : 0 < d)
    (hn : 1 ≤ (team.filter fun m => m.status == .alive && m.idx != hidx).length) :
    (deflectApply team hidx d).1 = ((3 * d.toNat) / 10 : Nat) ∧
    (deflectApply team hidx d).2 = (team.map fun m =>
      if m.status == .alive && m.idx != hidx then
        checkDeath { m with health := m.health -
          (((7 * d.toNat) / 10) /
            (team.filter fun m => m.status == .alive && m.idx != hidx).length : Nat) }
      else m) ∧
    d.toNat -
        ((3 * d.toNat) / 10 +
          (team.filter fun m => m.status == .alive && m.idx != hidx).length *
            (((7 * d.toNat) / 10) /
              (team.filter fun m => m.status == .alive && m.idx != hidx).length)) =
      ((3 * d.toNat) % 10 + (7 * d.toNat) % 10) / 10 +
        ((7 * d.toNat) / 10) %
          (team.filter fun m => m.status == .alive && m.idx != hidx).length ∧
    (3 * d.toNat) / 10 +
        (team.filter fun m => m.status == .alive && m.idx != hidx).length *
          (((7 * d.toNat) / 10) /
            (team.filter fun m => m.status == .alive && m.idx != hidx).length) ≤ d.toNat ∧
    d.toNat ≤
      (3 * d.toNat) / 10 +
        (team.filter fun m => m.status == .alive && m.idx != hidx).length *
          (((7 * d.toNat) / 10) /
            (team.filter fun m => m.status == .alive && m.idx != hidx).length) +
        (team.filter fun m => m.status == .alive && m.idx != hidx).length := by
  have hne : ((team.filter fun m => m.status == .alive && m.idx != hidx).isEmpty) = false := by
    cases he : (team.filter fun m => m.status == .alive && m.idx != hidx).isEmpty
    · rfl
    · rw [List.isEmpty_iff_length_eq_zero] at he
      omega
  refine ⟨?_, ?_, ?_, ?_, ?_⟩
  · unfold deflectApply
    dsimp only
    rw [hne]
    rfl
  · unfold deflectApply
    dsimp only
    rw [hne]
    rfl
  · set n := (team.filter fun m => m.status == .alive && m.idx != hidx).length with hdefn
    have hx : d.toNat = d := Int.toNat_of_nonneg (le_of_lt hd)
    have hmod3 := Nat.div_add_mod ((7 * d.toNat) / 10) n
    have hr3 : ((7 * d.toNat) / 10) % n < n := Nat.mod_lt _ (by omega)
    omega
  · set n := (team.filter fun m => m.status == .alive && m.idx != hidx).length with hdefn
    have hmod3 := Nat.div_add_mod ((7 * d.toNat) / 10) n
    omega
  · set n := (team.filter fun m => m.status == .alive && m.idx != hidx).length with hdefn
    have hmod3 := Nat.div_add_mod ((7 * d.toNat) / 10) n
    have hr3 : ((7 * d.toNat) / 10) % n < n := Nat.mod_lt _ (by omega)
    omega

/-- Witness for C3: a 101-damage hit on a deflecting hero with three
alive teammates retains int(0.3*101) = 30, distributes 23 to each
teammate, and drops 101 - (30 + 69) = 2 = 1 (int split) + 1 (division
remainder). -/
theorem deflect_conservation_witness :
    (deflectApply teamW 3 101).1 = 30 ∧
    (101 : Int).toNat -
        ((3 * (101 : Int).toNat) / 10 + 3 * (((7 * (101 : Int).toNat) / 10) / 3)) = 2 := by
  have h := deflect_conservation teamW 3 101 (by norm_num) (by decide)
  refine ⟨h.1.trans (by decide), ?_⟩
  have h3 := h.2.2.1
  have hlen : (teamW.filter fun m => m.status == .alive && m.idx != 3).length = 3 := by decide
  rw [hlen] at h3
  rw [h3]
  decide

/-! ## First-reveal resolution order (claims C2, C9) -/

lemma checkDeath_idx (h : Hero) : (checkDeath h).idx = h.idx := by
  unfold checkDeath; split <;> rfl

/-- find? by id commutes with id-preserving roster maps. -/
lemma find?_idx_map (team : List Hero) (f : Hero → Hero) (hf : ∀ h, (f h).idx = h.idx)
    (p : Nat) :
    (team.map f).find? (fun h => h.idx == p) = (team.find? (fun h => h.idx == p)).map f := by
  induction team with
  | nil => rfl
  | cons a ts ih =>
    simp only [List.map_cons, List.find?]
    rw [hf a]
    cases hpa : (a.idx == p) with
    | true => rfl
    | false => exact ih

lemma breach_idx_first (tpos : Nat) (h : Hero) :
    ((if h.idx == tpos then { h with revealed := true } else h) : Hero).idx = h.idx := by
  split <;> rfl

lemma breach_idx_second (h : Hero) :
    ((if h.status == .alive then checkDeath { h with health := h.health - 50 } else h) :
      Hero).idx = h.idx := by
  split
  · exact checkDeath_idx _
  · rfl

/-- Locating the target inside the breached roster: it is the target
with the revealed flag set and 50 health subtracted (death-checked). -/
lemma breachPhase_find (team : List Hero) (tgt : Hero) (tpos : Nat)
    (hfind : team.find? (fun h => h.idx == tpos) = some tgt)
    (htidx : (tgt.idx == tpos) = true) (hst : tgt.status = .alive) :
    (breachPhase team tpos).find? (fun h => h.idx == tpos) =
      some (checkDeath { tgt with revealed := true, health := tgt.health - 50 }) := by
  unfold breachPhase
  rw [find?_idx_map _ _ breach_idx_second, find?_idx_map _ _ (breach_idx_first tpos), hfind]
  have htidx' : tgt.idx = tpos := by simpa using htidx
  simp [htidx', hst]

lemma write_back_idx (hero6 : Hero) (hidx : Nat) (hh : hero6.idx = hidx) (h : Hero) :
    ((if h.idx == hidx then hero6 else h) : Hero).idx = h.idx := by
  split
  · rename_i hc
    have hc' : h.idx = hidx := by simpa using hc
    rw [hh, hc']
  · rfl

/-- Pointwise description of breach followed by the single-target
write-back: the target slot receives the fully processed hero, every
other slot receives exactly the global-breach treatment. -/
lemma breach_write_pointwise (tpos : Nat) (tgt heroNew : Hero) (htidx' : tgt.idx = tpos)
    (h : Hero) :
    (fun m => if m.idx == tgt.idx then heroNew else m)
      ((fun x => if x.status == .alive then checkDeath { x with health := x.health - 50 }
          else x)
        ((fun x => if x.idx == tpos then { x with revealed := true } else x) h)) =
      (if h.idx == tpos then heroNew
       else if h.status == .alive then checkDeath { h with health := h.health - 50 }
       else h) := by
  dsimp only
  by_cases hc : (h.idx == tpos) = true
  · have hceq : h.idx = tpos := by simpa using hc
    by_cases hs : (h.status == Status.alive) = true
    · simp [hc, hs, checkDeath_idx, htidx', hceq]
    · rw [Bool.not_eq_true] at hs
      simp [hc, hs, checkDeath_idx, htidx', hceq]
  · rw [Bool.not_eq_true] at hc
    have hceq : ¬ h.idx = tpos := by simpa using hc
    by_cases hs : (h.status == Status.alive) = true
    · simp [hc, hs, checkDeath_idx, htidx', hceq]
    · rw [Bool.not_eq_true] at hs
      simp [hc, hs, checkDeath_idx, htidx', hceq]

/-- C2. A single-target, non-AOE attack with a correct identity guess
on a not-yet-revealed, alive, passive-less, unshielded 400-health
target: the resolution marks the target revealed and subtracts 50 from
every currently-alive defender (death-checked), and only then applies
the parsed 100 damage to the target, ending at health
400 - 50 - 100 = 250; no counter damage arises. -/
theorem first_reveal_breach_then_damage
    (team : List Hero) (atk : AttackInfo) (rng : List Bool) (tgt : Hero)
    (hfind : team.find? (fun h => h.idx == atk.target_position) = some tgt)
    (hhp : tgt.health = 400) (hst : tgt.status = .alive) (hrev : tgt.revealed = false)
    (hsh : tgt.subtle_shield = false)
    (hp1 : strContains (lowerStr tgt.passive) "reduce" = false)
    (hp2 : strContains (lowerStr tgt.passive) "deflect" = false)
    (hp3 : strContains (lowerStr tgt.passive) "counter" = false)
    (hp4 : strContains (lowerStr tgt.passive) "explode" = false)
    (hp5 : strContains (lowerStr tgt.passive) "heal:" = false)
    (hguess : lowerStr atk.guessed_identity = lowerStr tgt.name) :
    (process_incoming_attack team atk (some ⟨100, false, false⟩) rng).2 =
      team.map (fun h =>
        if h.idx == atk.target_position then { tgt with revealed := true, health := 250 }
        else if h.status == .alive then checkDeath { h with health := h.health - 50 }
        else h) ∧
    ((process_incoming_attack team atk (some ⟨100, false, false⟩) rng).1.map
      Feedback.target_health) = some 250 ∧
    ((process_incoming_attack team atk (some ⟨100, false, false⟩) rng).1.map
      Feedback.counter_damage) = some 0 ∧
    ((process_incoming_attack team atk (some ⟨100, false, false⟩) rng).1.map
      Feedback.guess_correct) = some true := by
  have htidx : (tgt.idx == atk.target_position) = true := by
    have := List.find?_some hfind
    simpa using this
  have htidx' : tgt.idx = atk.target_position := by simpa using htidx
  have hcond : (lowerStr atk.guessed_identity == lowerStr tgt.name) = true ∧
      tgt.revealed = false := ⟨by rw [hguess]; exact beq_self_eq_true _, hrev⟩
  have htgt1 : checkDeath { tgt with revealed := true, health := tgt.health - 50 } =
      { tgt with revealed := true, health := 350 } := by
    rw [hhp]
    unfold checkDeath
    norm_num
  have hfind1 : (breachPhase team atk.target_position).find?
      (fun h => h.idx == atk.target_position) =
      some { tgt with revealed := true, health := 350 } := by
    rw [breachPhase_find team tgt atk.target_position hfind htidx hst, htgt1]
  have hdet : determineTargets (breachPhase team atk.target_position) atk.target_position
      atk.attacker_ap ⟨100, false, false⟩ = ([atk.target_position], 100) := by
    unfold determineTargets
    rw [hfind1]
    simp [hst]
  have hshield : shieldStage { tgt with revealed := true, health := 350 } 100 =
      ({ tgt with revealed := true, health := 350 }, 100) := by
    unfold shieldStage
    rw [if_neg]
    intro hc
    rw [hsh] at hc
    exact absurd hc.1 (by simp)
  have hhit : hitHero (lowerStr tgt.passive) { tgt with revealed := true, health := 350 } 100 =
      { tgt with revealed := true, health := 250 } := by
    unfold hitHero applyStage
    dsimp only
    rw [hp2, hp4, hp5]
    norm_num
    unfold checkDeath
    norm_num
  have hcnt : hitCounter (lowerStr tgt.passive) (breachPhase team atk.target_position)
      tgt.idx { tgt with revealed := true, health := 350 } 100 0 = 0 := by
    unfold hitCounter
    dsimp only
    rw [hp3, hp4]
    norm_num
  have hnotf : ¬ (false = true) := by simp
  have hnod : ¬ (strContains (lowerStr tgt.passive) "deflect" = true ∧ 0 < (100 : Int)) := by
    simp [hp2]
  have hpre : preDamage (lowerStr tgt.passive) false (breachPhase team atk.target_position)
      tgt.idx 100 = (100, breachPhase team atk.target_position) := by
    unfold preDamage
    rw [if_neg hnotf, if_neg hnod]
  have hpt : processTarget 100
      { team := breachPhase team atk.target_position, counter_damage := 0, rng := rng }
      atk.target_position =
      { team := (breachPhase team atk.target_position).map fun m =>
          if m.idx == tgt.idx then { tgt with revealed := true, health := 250 } else m,
        counter_damage := 0, rng := rng } := by
    unfold processTarget
    rw [hfind1]
    dsimp only
    rw [hp1]
    simp only [Bool.false_and, Bool.false_eq_true, if_false]
    rw [hpre]
    dsimp only
    rw [hshield]
    dsimp only
    rw [hhit, hcnt]
  have hres : process_incoming_attack team atk (some ⟨100, false, false⟩) rng =
      (some { guess_correct := true, actual_identity := some tgt.name, counter_damage := 0,
              target_health := 250, target_status := .alive,
              all_dead_positions :=
                ((((breachPhase team atk.target_position).map fun m =>
                    if m.idx == tgt.idx then { tgt with revealed := true, health := 250 }
                    else m).filter fun h => h.status == .dead).map fun h => h.idx) },
        (breachPhase team atk.target_position).map fun m =>
          if m.idx == tgt.idx then { tgt with revealed := true, health := 250 } else m) := by
    unfold process_incoming_attack
    rw [hfind]
    dsimp only
    rw [if_pos hcond, hdet]
    simp only [List.foldl_cons, List.foldl_nil]
    rw [hpt]
    dsimp only
    rw [find?_idx_map _ _
      (write_back_idx { tgt with revealed := true, health := 250 } tgt.idx rfl)
      atk.target_position, hfind1]
    rw [hcond.1]
    simp [hst]
  refine ⟨?_, ?_, ?_, ?_⟩
  · rw [hres]
    show ((team.map _).map _).map _ = _
    rw [List.map_map, List.map_map]
    refine congrArg (fun f => List.map f team) (funext fun h => ?_)
    exact breach_write_pointwise atk.target_position tgt
      { tgt with revealed := true, health := 250 } htidx' h
  · rw [hres]
    rfl
  · rw [hres]
    rfl
  · rw [hres]
    rfl

/-- A roster whose hero 1 has no recognized passive keyword. -/
def specsP : List HeroSpec :=
  [⟨"Argonian", "Counter: strike back", "Crit: 120 damage", none, none⟩,
   ⟨"Nord", "plain", "AOE: hit all", none, none⟩,
   ⟨"Khajit", "Heal: recover 20", "Crit: 120 damage", none, none⟩,
   ⟨"Breton", "Deflect: share damage", "Subtle: shield", none, none⟩]

/-- The initialized roster for `specsP`. -/
def teamP : List Hero := initialize_team specsP

/-- Hero 1 of `teamP` as initialized. -/
def tgtP : Hero :=
  { idx := 1, name := "Nord", health := 400, attack_power := 200, status := .alive,
    revealed := false, subtle_shield := false, accumulated_damage := 0,
    buff_threshold := 200, passive := "plain", active := "AOE: hit all" }

/-- Witness for C2 at the concrete roster `teamP`: a correct guess
("NORD" against "Nord") with a 100-damage single-target skill leaves
the target at 250 health. -/
theorem first_reveal_breach_then_damage_witness :
    ((process_incoming_attack teamP ⟨1, "NORD", "Basic Attack", 200⟩
        (some ⟨100, false, false⟩) []).1.map Feedback.target_health) = some 250 ∧
    ((process_incoming_attack teamP ⟨1, "NORD", "Basic Attack", 200⟩
        (some ⟨100, false, false⟩) []).1.map Feedback.guess_correct) = some true := by
  have h := first_reveal_breach_then_damage teamP ⟨1, "NORD", "Basic Attack", 200⟩ [] tgtP
    (by decide) (by decide) (by decide) (by decide) (by decide) (by decide) (by decide)
    (by decide) (by decide) (by decide) (by decide)
  exact ⟨h.2.1, h.2.2.2⟩

lemma checkDeath_revealed (h : Hero) : (checkDeath h).revealed = h.revealed := by
  unfold checkDeath; split <;> rfl

/-- C9. Attack resolution is not atomic on a skill-parse failure: with
a correct first-time identity guess and a failing parse,
process_incoming_attack returns no feedback, yet the defending roster
keeps the breach mutations — the target is marked revealed and every
currently-alive defender has taken 50 death-checked damage. -/
theorem parse_failure_nonatomic
    (team : List Hero) (atk : AttackInfo) (rng : List Bool) (tgt : Hero)
    (hfind : team.find? (fun h => h.idx == atk.target_position) = some tgt)
    (hrev : tgt.revealed = false)
    (hguess : lowerStr atk.guessed_identity = lowerStr tgt.name) :
    (process_incoming_attack team atk none rng).1 = none ∧
    (process_incoming_attack team atk none rng).2 =
      team.map (fun h =>
        if h.idx == atk.target_position then
          (if h.status == .alive then
            checkDeath { h with revealed := true, health := h.health - 50 }
          else { h with revealed := true })
        else
          (if h.status == .alive then checkDeath { h with health := h.health - 50 }
          else h)) ∧
    (((process_incoming_attack team atk none rng).2.find?
        (fun h => h.idx == atk.target_position)).map Hero.revealed) = some true := by
  have htidx : (tgt.idx == atk.target_position) = true := by
    have := List.find?_some hfind
    simpa using this
  have hcond : (lowerStr atk.guessed_identity == lowerStr tgt.name) = true ∧
      tgt.revealed = false := ⟨by rw [hguess]; exact beq_self_eq_true _, hrev⟩
  have hmain : (process_incoming_attack team atk none rng) =
      (none, breachPhase team atk.target_position) := by
    unfold process_incoming_attack
    rw [hfind]
    dsimp only
    rw [if_pos hcond]
  refine ⟨by rw [hmain], ?_, ?_⟩
  · rw [hmain]
    unfold breachPhase
    rw [List.map_map]
    refine congrArg (fun f => List.map f team) (funext fun h => ?_)
    dsimp only [Function.comp]
    by_cases hc : (h.idx == atk.target_position) = true
    · simp only [hc, if_true]
    · rw [Bool.not_eq_true] at hc
      simp only [hc, Bool.false_eq_true, if_false]
  · rw [hmain]
    unfold breachPhase
    rw [find?_idx_map _ _ breach_idx_second,
      find?_idx_map _ _ (breach_idx_first atk.target_position), hfind]
    simp only [Option.map_some']
    rw [if_pos htidx]
    by_cases hs : (({ tgt with revealed := true } : Hero).status == Status.alive) = true
    · rw [if_pos hs, checkDeath_revealed]
    · rw [if_neg hs]

/-- Witness for C9: on the concrete roster `teamP`, a correct
first-reveal guess with a failed parse returns no feedback while the
target ends up revealed. -/
theorem parse_failure_nonatomic_witness :
    (process_incoming_attack teamP ⟨1, "NORD", "Basic Attack", 200⟩ none []).1 = none ∧
    (((process_incoming_attack teamP ⟨1, "NORD", "Basic Attack", 200⟩ none []).2.find?
        (fun h => h.idx == 1)).map Hero.revealed) = some true := by
  have h := parse_failure_nonatomic teamP ⟨1, "NORD", "Basic Attack", 200⟩ [] tgtP
    (by decide) (by decide) (by decide)
  exact ⟨h.1, h.2.2⟩

/-! ## Explode recoil (claim C5) -/

lemma checkDeath_ap (h : Hero) : (checkDeath h).attack_power = h.attack_power := by
  unfold checkDeath; split <;> rfl

/-- A roster whose hero 0 carries the Explode passive. -/
def specsE : List HeroSpec :=
  [⟨"Dunmer", "Explode: on hit recoil", "Crit: 120 damage", none, none⟩,
   ⟨"Nord", "plain", "AOE: hit all", none, none⟩,
   ⟨"Khajit", "plain", "Crit: 120 damage", none, none⟩,
   ⟨"Breton", "plain", "Subtle: shield", none, none⟩]

/-- `specsE` initialized, with hero 0 brought down to 40 health. -/
def teamE : List Hero := update_hero_stats (initialize_team specsE) 0 360

/-- Counterexample to C5 as stated: the Explode hero at 40 health takes
a 100-damage hit (nonzero damage taken), yet the returned counter
damage is 0, not 40 — the code additionally requires the hero to
survive the hit. -/
theorem explode_claim_counterexample :
    ((teamE.find? fun h => h.idx == 0).map Hero.passive) = some "Explode: on hit recoil" ∧
    ((teamE.find? fun h => h.idx == 0).map Hero.health) = some 40 ∧
    ((process_incoming_attack teamE ⟨0, "wrong", "Basic Attack", 200⟩
        (some ⟨100, false, false⟩) []).1.map Feedback.counter_damage) = some 0 ∧
    ¬ ((process_incoming_attack teamE ⟨0, "wrong", "Basic Attack", 200⟩
        (some ⟨100, false, false⟩) []).1.map Feedback.counter_damage) = some 40 := by
  decide

/-- C5 amended.  For a single-target hit of parsed damage d > 0 on an
alive, unshielded target whose passive matches Explode (and none of the
other keywords), with an incorrect guess: 40 counter damage is returned
exactly when the target's post-damage health is positive (survival is
required, contrary to the claim as stated), and the attack power rises
by 15 exactly when that post-damage health lies in (0, 120). -/
theorem explode_recoil_amended
    (team : List Hero) (atk : AttackInfo) (rng : List Bool) (tgt : Hero) (d : Int)
    (hd : 0 < d)
    (hfind : team.find? (fun h => h.idx == atk.target_position) = some tgt)
    (hst : tgt.status = .alive) (hsh : tgt.subtle_shield = false)
    (hp1 : strContains (lowerStr tgt.passive) "reduce" = false)
    (hp2 : strContains (lowerStr tgt.passive) "deflect" = false)
    (hp3 : strContains (lowerStr tgt.passive) "counter" = false)
    (hp4 : strContains (lowerStr tgt.passive) "explode" = true)
    (hp5 : strContains (lowerStr tgt.passive) "heal:" = false)
    (hguess : ¬ lowerStr atk.guessed_identity = lowerStr tgt.name) :
    ((process_incoming_attack team atk (some ⟨d, false, false⟩) rng).1.map
      Feedback.counter_damage) = some (if 0 < tgt.health - d then 40 else 0) ∧
    (((process_incoming_attack team atk (some ⟨d, false, false⟩) rng).2.find?
        (fun h => h.idx == atk.target_position)).map Hero.attack_power) =
      some (if tgt.health - d < 120 ∧ 0 < tgt.health - d then tgt.attack_power + 15
        else tgt.attack_power) := by
  have htidx : (tgt.idx == atk.target_position) = true := by
    have := List.find?_some hfind
    simpa using this
  have hnc : ¬ ((lowerStr atk.guessed_identity == lowerStr tgt.name) = true ∧
      tgt.revealed = false) := by
    intro hcc
    exact hguess (by simpa using hcc.1)
  have hgf : (lowerStr atk.guessed_identity == lowerStr tgt.name) = false := by
    rw [beq_eq_false_iff_ne]
    exact hguess
  have hdet : determineTargets team atk.target_position atk.attacker_ap ⟨d, false, false⟩ =
      ([atk.target_position], d) := by
    unfold determineTargets
    rw [hfind]
    simp [hst]
  have happ : applyStage tgt d = { tgt with health := tgt.health - d } := by
    unfold applyStage
    rw [if_pos hd]
  have hshield : shieldStage tgt d = (tgt, d) := by
    unfold shieldStage
    rw [if_neg]
    intro hc
    rw [hsh] at hc
    exact absurd hc.1 (by simp)
  have hnotf : ¬ (false = true) := by simp
  have hnod : ¬ (strContains (lowerStr tgt.passive) "deflect" = true ∧ 0 < d) := by
    simp [hp2]
  have hpre : preDamage (lowerStr tgt.passive) false team tgt.idx d = (d, team) := by
    unfold preDamage
    rw [if_neg hnotf, if_neg hnod]
  have hexp : strContains (lowerStr tgt.passive) "explode" = true ∧ 0 < d := ⟨hp4, hd⟩
  have hhit : hitHero (lowerStr tgt.passive) tgt d =
      checkDeath (if tgt.health - d < 120 ∧ 0 < tgt.health - d then
        { tgt with health := tgt.health - d, attack_power := tgt.attack_power + 15 }
      else { tgt with health := tgt.health - d }) := by
    unfold hitHero
    dsimp only
    rw [happ, hp2, hp5]
    simp only [Bool.false_eq_true, if_false]
    rw [if_pos hexp]
    unfold explodeStage
    dsimp only
  have hcnt : hitCounter (lowerStr tgt.passive) team tgt.idx tgt d 0 =
      (if 0 < d ∧ 0 < tgt.health - d then 40 else 0) := by
    unfold hitCounter
    dsimp only
    rw [happ, hp3]
    simp only [Bool.false_eq_true, if_false]
    rw [if_pos hexp]
    unfold explodeStage
    dsimp only
    by_cases hcase : 0 < d ∧ 0 < tgt.health - d
    · rw [if_pos hcase, if_pos hcase]
      norm_num
    · rw [if_neg hcase, if_neg hcase]
  have hpt : processTarget d { team := team, counter_damage := 0, rng := rng }
      atk.target_position =
      { team := team.map fun m =>
          if m.idx == tgt.idx then
            checkDeath (if tgt.health - d < 120 ∧ 0 < tgt.health - d then
              { tgt with health := tgt.health - d, attack_power := tgt.attack_power + 15 }
            else { tgt with health := tgt.health - d })
          else m,
        counter_damage := (if 0 < d ∧ 0 < tgt.health - d then 40 else 0),
        rng := rng } := by
    unfold processTarget
    rw [hfind]
    dsimp only
    rw [hp1]
    simp only [Bool.false_and, Bool.false_eq_true, if_false]
    rw [hpre]
    dsimp only
    rw [hshield]
    dsimp only
    rw [hhit, hcnt]
  refine ⟨?_, ?_⟩
  · unfold process_incoming_attack
    rw [hfind]
    dsimp only
    rw [if_neg hnc, hdet]
    simp only [List.foldl_cons, List.foldl_nil]
    rw [hpt]
    simp only [Option.map_some']
    congr 1
    by_cases hcase : 0 < tgt.health - d
    · rw [if_pos ⟨hd, hcase⟩, if_pos hcase]
    · rw [if_neg (fun hc => hcase hc.2), if_neg hcase]
  · have hidxF : (checkDeath (if tgt.health - d < 120 ∧ 0 < tgt.health - d then
        { tgt with health := tgt.health - d, attack_power := tgt.attack_power + 15 }
      else { tgt with health := tgt.health - d })).idx = tgt.idx := by
      rw [checkDeath_idx]
      split <;> rfl
    unfold process_incoming_attack
    rw [hfind]
    dsimp only
    rw [if_neg hnc, hdet]
    simp only [List.foldl_cons, List.foldl_nil]
    rw [hpt]
    dsimp only
    rw [find?_idx_map _ _ (write_back_idx _ tgt.idx hidxF), hfind]
    simp only [Option.map_some']
    rw [if_pos (beq_self_eq_true tgt.idx)]
    rw [checkDeath_ap]
    congr 1
    by_cases hcase : tgt.health - d < 120 ∧ 0 < tgt.health - d
    · rw [if_pos hcase, if_pos hcase]
    · rw [if_neg hcase, if_neg hcase]

/-- Hero 0 of `initialize_team specsE` as initialized. -/
def tgtE : Hero :=
  { idx := 0, name := "Dunmer", health := 400, attack_power := 200, status := .alive,
    revealed := false, subtle_shield := false, accumulated_damage := 0,
    buff_threshold := 200, passive := "Explode: on hit recoil",
    active := "Crit: 120 damage" }

/-- Witness for the amended C5: with hero 0 of the Explode roster at
full 400 health, a 100-damage hit leaves it at 300 (> 0), so the +40
recoil fires; 300 is not below 120, so attack power stays 200. -/
theorem explode_recoil_amended_witness :
    ((process_incoming_attack (initialize_team specsE) ⟨0, "wrong", "Basic Attack", 200⟩
        (some ⟨100, false, false⟩) []).1.map Feedback.counter_damage) = some 40 ∧
    (((process_incoming_attack (initialize_team specsE) ⟨0, "wrong", "Basic Attack", 200⟩
        (some ⟨100, false, false⟩) []).2.find? (fun h => h.idx == 0)).map
      Hero.attack_power) = some 200 := by
  have h := explode_recoil_amended (initialize_team specsE)
    ⟨0, "wrong", "Basic Attack", 200⟩ [] tgtE 100 (by norm_num)
    (by decide) (by decide) (by decide) (by decide) (by decide) (by decide) (by decide)
    (by decide) (by decide)
  refine ⟨h.1.trans (by decide), h.2.trans (by decide)⟩

/-! ## Decision validation (claim C4) -/

/-- Counterexample to C4 as stated: with hero 1 dead, an Infight
targeting it is not rejected — the turn reports INTERNAL ACTION and the
actor's attack power is buffed from 200 to 340, so state mutates on a
move the claim says must be an IllegalMove. -/
theorem infight_validation_counterexample :
    (((update_hero_stats teamP 1 400).find? fun h => h.idx == 1).map Hero.status) =
      some .dead ∧
    (select_hero_for_turn (update_hero_stats teamP 1 400)
      (some ⟨some 0, "Argonian", "Infight: deal 75 damage to a teammate",
        "teammate", some 1⟩)).1 = .internalAction ∧
    (((select_hero_for_turn (update_hero_stats teamP 1 400)
      (some ⟨some 0, "Argonian", "Infight: deal 75 damage to a teammate",
        "teammate", some 1⟩)).2.find? fun h => h.idx == 0).map Hero.attack_power) =
      some 340 := by
  decide

/-- C4 amended.  The validations the engine does perform: a missing or
unknown selected hero id is rejected with no mutation; an internal
skill (Infight/Subtle) aimed at the enemy is rejected with no mutation;
an Infight with a null target id or targeting the actor itself performs
no mutation.  Aliveness of the selected hero or of the Infight target
is not checked (see the counterexample). -/
theorem infight_validation_amended :
    (∀ (team : List Hero) (d : ManagerDecision),
      (team.filter fun h => h.status == .alive).isEmpty = false →
      d.selected_hero_id = none →
      select_hero_for_turn team (some d) = (.failed, team)) ∧
    (∀ (team : List Hero) (d : ManagerDecision) (hid : Nat),
      (team.filter fun h => h.status == .alive).isEmpty = false →
      d.selected_hero_id = some hid →
      (team.find? fun h => h.idx == hid).isNone = true →
      select_hero_for_turn team (some d) = (.failed, team)) ∧
    (∀ (team : List Hero) (d : ManagerDecision) (hid : Nat),
      (team.filter fun h => h.status == .alive).isEmpty = false →
      d.selected_hero_id = some hid →
      (team.find? fun h => h.idx == hid).isNone = false →
      d.target_type = "enemy" →
      (strContains (lowerStr d.selected_skill) "infight" = true ∨
        strContains (lowerStr d.selected_skill) "subtle" = true) →
      select_hero_for_turn team (some d) = (.failed, team)) ∧
    (∀ (team : List Hero) (aid : Nat) (skill : String),
      execInternalSkill team aid skill none = team) ∧
    (∀ (team : List Hero) (aid : Nat) (skill : String),
      strContains (lowerStr skill) "infight" = true →
      execInternalSkill team aid skill (some aid) = team) := by
  refine ⟨?_, ?_, ?_, ?_, ?_⟩
  · intro team d halive hnone
    unfold select_hero_for_turn
    simp only [halive, Bool.false_eq_true, if_false]
    rw [hnone]
  · intro team d hid halive hsome hmiss
    unfold select_hero_for_turn
    simp only [halive, Bool.false_eq_true, if_false]
    rw [hsome]
    dsimp only
    simp only [hmiss, if_true]
  · intro team d hid halive hsome hvalid henemy hint
    unfold select_hero_for_turn
    simp only [halive, Bool.false_eq_true, if_false]
    rw [hsome]
    dsimp only
    simp only [hvalid, Bool.false_eq_true, if_false]
    rw [if_pos ⟨henemy, hint⟩]
  · intro team aid skill
    unfold execInternalSkill
    rfl
  · intro team aid skill hs
    unfold execInternalSkill
    dsimp only
    simp only [hs, if_true, beq_self_eq_true]

/-- Witness for the amended C4 at concrete inputs on `teamP`. -/
theorem infight_validation_amended_witness :
    select_hero_for_turn teamP
      (some ⟨none, "Argonian", "Basic Attack", "enemy", none⟩) = (.failed, teamP) ∧
    select_hero_for_turn teamP
      (some ⟨some 9, "Argonian", "Basic Attack", "enemy", none⟩) = (.failed, teamP) ∧
    select_hero_for_turn teamP
      (some ⟨some 0, "Argonian", "Infight: deal 75 damage", "enemy", none⟩) =
      (.failed, teamP) ∧
    execInternalSkill teamP 0 "Infight: deal 75 damage" none = teamP ∧
    execInternalSkill teamP 0 "Infight: deal 75 damage" (some 0) = teamP :=
  ⟨infight_validation_amended.1 teamP _ (by decide) rfl,
   infight_validation_amended.2.1 teamP _ 9 (by decide) rfl (by decide),
   infight_validation_amended.2.2.1 teamP _ 0 (by decide) rfl (by decide) rfl
     (Or.inl (by decide)),
   infight_validation_amended.2.2.2.1 teamP 0 "Infight: deal 75 damage",
   infight_validation_amended.2.2.2.2 teamP 0 "Infight: deal 75 damage" (by decide)⟩

/-! ## Defeat handling (claim C6) -/

/-- C6.  When the acting side has no alive heroes at action selection,
the turn resolves as a normal GAME OVER (the manager's DEFEAT becomes
the lead's SURRENDER) with both rosters untouched — no combat happens,
no abort — and the game loop declares the opposing side the winner,
whatever every oracle would have answered. -/
theorem defeat_terminates_normally
    (teamA teamB : List Hero)
    (mA : Option ManagerDecision) (lA : Option LeadDecision) (pA : Option ParsedSkill)
    (rngA : List Bool) (mB : Option ManagerDecision) (lB : Option LeadDecision)
    (pB : Option ParsedSkill) (rngB : List Bool)
    (hdead : (teamA.filter fun h => h.status == .alive).isEmpty = true) :
    perform_turn teamA teamB mA lA pA rngA = (.gameOver, teamA, teamB) ∧
    perform_turn teamA teamB mA lA pA rngA ≠ (.turnFailed, teamA, teamB) ∧
    runRound teamA teamB mA lA pA rngA mB lB pB rngB = .winner "Team B" := by
  have hp : perform_turn teamA teamB mA lA pA rngA = (.gameOver, teamA, teamB) := by
    unfold perform_turn select_hero_for_turn
    dsimp only
    rw [if_pos hdead]
  refine ⟨hp, ?_, ?_⟩
  · rw [hp]
    simp
  · unfold runRound
    rw [hp]

/-- The `teamP` roster with all four heroes dead. -/
def teamDead4 : List Hero :=
  update_hero_stats (update_hero_stats (update_hero_stats
    (update_hero_stats teamP 0 400) 1 400) 2 400) 3 400

/-- Witness for C6: a concrete fully-dead roster surrenders and Team B
wins the round, with all oracles absent. -/
theorem defeat_terminates_normally_witness :
    perform_turn teamDead4 teamP none none none [] = (.gameOver, teamDead4, teamP) ∧
    runRound teamDead4 teamP none none none [] none none none [] = .winner "Team B" := by
  have h := defeat_terminates_normally teamDead4 teamP none none none [] none none none []
    (by decide)
  exact ⟨h.1, h.2.2⟩

/-! ## Metrics (claim C7) -/

/-- Counterexample to C7 as stated: a single completed episode whose
recorded damage is negative (reachable — see the Heal theorem) makes
damage_rate negative, refuting `damage_rate >= 0`. -/
theorem metrics_rate_counterexample :
    damage_rate [⟨"Team B", -15, 15⟩] "Team A" < 0 := by
  unfold damage_rate damageOf
  norm_num

/-- C7 amended.  For any non-empty results list and either side label:
win_rate lies in [0, 1] and reward is exactly
0.7 * win_rate + 0.3 * damage_rate with
damage_rate = (average damage) / 1600 — a deterministic function of the
two rates — but damage_rate itself is not bounded below by 0. -/
theorem metrics_amended (results : List EpisodeResult) (team_label : String)
    (hne : results ≠ []) :
    0 ≤ win_rate results team_label ∧ win_rate results team_label ≤ 1 ∧
    reward results team_label =
      (7 / 10) * win_rate results team_label +
        (3 / 10) * damage_rate results team_label ∧
    damage_rate results team_label =
      (((results.map fun r => damageOf r team_label).sum : ℚ) /
        (results.length : ℚ)) / 1600 := by
  have hlen : 0 < (results.length : ℚ) := by
    have := List.length_pos.mpr hne
    exact_mod_cast this
  refine ⟨?_, ?_, rfl, rfl⟩
  · unfold win_rate
    positivity
  · unfold win_rate
    rw [div_le_one hlen]
    exact_mod_cast List.length_filter_le _ results

/-- Witness for the amended C7 on a concrete one-episode result. -/
theorem metrics_amended_witness :
    0 ≤ win_rate [⟨"Team A", 100, 200⟩] "Team A" ∧
    win_rate [⟨"Team A", 100, 200⟩] "Team A" ≤ 1 ∧
    reward [⟨"Team A", 100, 200⟩] "Team A" =
      (7 / 10) * win_rate [⟨"Team A", 100, 200⟩] "Team A" +
        (3 / 10) * damage_rate [⟨"Team A", 100, 200⟩] "Team A" := by
  have h := metrics_amended [⟨"Team A", 100, 200⟩] "Team A" (by simp)
  exact ⟨h.1, h.2.1, h.2.2.1⟩

/-! ## Damage accounting across difficulty scaling (claim C8) -/

/-- Counterexample to C8 as stated: with difficulty 66049/65536 (whose
float square root is exactly 257/256), each hero starts at
int(400 * 257/256) = 401 health, so the roster's starting total is
1604, while run_game_loop records start_hp_b = int(1600 * 257/256) =
1606.  Before any combat the recorded damage dealt by side A is already
2, not starting-total minus final-total (= 0). -/
theorem damage_accounting_counterexample :
    damage_dealt_by_a false (257 / 256)
      (initialize_team (apply_difficulty_scaling specsP (257 / 256))) = 2 ∧
    get_total_team_health (initialize_team (apply_difficulty_scaling specsP (257 / 256))) -
      get_total_team_health (initialize_team (apply_difficulty_scaling specsP (257 / 256)))
      = 0 ∧
    (2 : Int) ≠ 0 := by
  refine ⟨?_, by ring, by norm_num⟩
  unfold damage_dealt_by_a start_hp_b get_total_team_health
  unfold initialize_team apply_difficulty_scaling specsP scaledHealth scaledAttackPower
  norm_num [Int.floor_eq_iff]
  decide

/-- C8 amended.  Side B's recorded damage is exact: it equals side A's
starting total (1600 for an unscaled 4-hero roster) minus A's final
total.  Side A's recorded damage uses int(1600 * sqrt(d)) as the
starting total, which exceeds the scaled roster's true starting total
4 * int(400 * sqrt(d)) by between 0 and 3; the recorded value therefore
overstates start-minus-final by exactly that floor discrepancy (0 when
the per-hero scaling is exact, e.g. difficulty 1). -/
theorem damage_accounting_amended :
    (∀ (specs : List HeroSpec) (finalTeamA : List Hero),
      specs.length = 4 → (∀ sp ∈ specs, sp.initial_health = none) →
      damage_dealt_by_b finalTeamA =
        get_total_team_health (initialize_team specs) -
          get_total_team_health finalTeamA) ∧
    (∀ (s : ℚ) (specs : List HeroSpec) (finalTeamB : List Hero), specs.length = 4 →
      damage_dealt_by_a false s finalTeamB -
        (get_total_team_health (initialize_team (apply_difficulty_scaling specs s)) -
          get_total_team_health finalTeamB) = ⌊(1600 : ℚ) * s⌋ - 4 * ⌊(400 : ℚ) * s⌋ ∧
      0 ≤ ⌊(1600 : ℚ) * s⌋ - 4 * ⌊(400 : ℚ) * s⌋ ∧
      ⌊(1600 : ℚ) * s⌋ - 4 * ⌊(400 : ℚ) * s⌋ ≤ 3) ∧
    (∀ (s : ℚ) (finalTeamB : List Hero),
      damage_dealt_by_a true s finalTeamB = 1600 - get_total_team_health finalTeamB) := by
  have hfloors : ∀ s : ℚ, 4 * ⌊(400 : ℚ) * s⌋ ≤ ⌊(1600 : ℚ) * s⌋ ∧
      ⌊(1600 : ℚ) * s⌋ < 4 * ⌊(400 : ℚ) * s⌋ + 4 := by
    intro s
    constructor
    · rw [Int.le_floor]
      push_cast
      have h1 : (⌊(400 : ℚ) * s⌋ : ℚ) ≤ 400 * s := Int.floor_le _
      nlinarith
    · rw [Int.floor_lt]
      push_cast
      have h1 : (400 : ℚ) * s < ⌊(400 : ℚ) * s⌋ + 1 := Int.lt_floor_add_one _
      nlinarith
  refine ⟨?_, ?_, ?_⟩
  · intro specs finalTeamA hlen hnone
    match specs, hlen with
    | [a, b, c, d], _ =>
      have ha := hnone a (by simp)
      have hb := hnone b (by simp)
      have hc := hnone c (by simp)
      have hd := hnone d (by simp)
      unfold damage_dealt_by_b get_total_team_health initialize_team
      simp [List.enum, ha, hb, hc, hd]
  · intro s specs finalTeamB hlen
    have hfl := hfloors s
    match specs, hlen with
    | [a, b, c, d], _ =>
      refine ⟨?_, by omega, by omega⟩
      unfold damage_dealt_by_a start_hp_b get_total_team_health initialize_team
        apply_difficulty_scaling scaledHealth
      simp [List.enum]
      ring
  · intro s finalTeamB
    rfl

/-- Witness for the amended C8 at a concrete scaling factor and roster. -/
theorem damage_accounting_amended_witness :
    damage_dealt_by_b teamP = get_total_team_health (initialize_team specsP) -
      get_total_team_health teamP ∧
    damage_dealt_by_a true (257 / 256) teamP = 1600 - get_total_team_health teamP ∧
    0 ≤ ⌊(1600 : ℚ) * (257 / 256)⌋ - 4 * ⌊(400 : ℚ) * (257 / 256)⌋ ∧
    ⌊(1600 : ℚ) * (257 / 256)⌋ - 4 * ⌊(400 : ℚ) * (257 / 256)⌋ ≤ 3 := by
  have h1 := damage_accounting_amended.1 specsP teamP (by decide) (by decide)
  have h2 := damage_accounting_amended.2.1 (257 / 256) specsP teamP (by decide)
  have h3 := damage_accounting_amended.2.2 (257 / 256) teamP
  exact ⟨h1, h3, h2.2.1, h2.2.2⟩

/-! ## Uncapped healing and negative recorded damage (claim C10) -/

/-- A roster whose hero 0 carries the Heal passive. -/
def specsH : List HeroSpec :=
  [⟨"Altmer", "Heal: recover 20 health", "Crit: 120 damage", none, none⟩,
   ⟨"Nord", "plain", "AOE: hit all", none, none⟩,
   ⟨"Khajit", "plain", "Crit: 120 damage", none, none⟩,
   ⟨"Breton", "plain", "Subtle: shield", none, none⟩]

/-- `specsH` initialized. -/
def teamH : List Hero := initialize_team specsH

/-- C10.  Heal has no cap: a 5-damage hit on the full-health Heal hero
nets +15 health (400 -> 415 > 400), the roster total rises to 1615,
exceeding the 1600 starting total, and the opponent's recorded damage
dealt, 1600 - 1615, is negative. -/
theorem heal_unbounded_negative_damage :
    (((process_incoming_attack teamH ⟨0, "wrong", "Basic Attack", 200⟩
        (some ⟨5, false, false⟩) []).2.find? fun h => h.idx == 0).map Hero.health) =
      some 415 ∧
    (400 : Int) < 415 ∧
    get_total_team_health (process_incoming_attack teamH ⟨0, "wrong", "Basic Attack", 200⟩
      (some ⟨5, false, false⟩) []).2 = 1615 ∧
    damage_dealt_by_b (process_incoming_attack teamH ⟨0, "wrong", "Basic Attack", 200⟩
      (some ⟨5, false, false⟩) []).2 = -15 ∧
    damage_dealt_by_b (process_incoming_attack teamH ⟨0, "wrong", "Basic Attack", 200⟩
      (some ⟨5, false, false⟩) []).2 < 0 := by
  decide

end Syrowar
